import Mathlib

/-!
Verification development for the great-transport backend core
(discovery / filtering / sync pipeline and its persistence layer).

Shallow embedding conventions:
* instants are rationals, measured in hours since an arbitrary epoch
  (Go `time.Time` / `time.Duration.Hours()`);
* Go `int` is `Int`, Go `float64` is `Rat` (the code only adds, divides
  and compares, so exact rationals track every branch faithfully);
* SQL tables are lists of rows; `NULL`-able columns are `Option`;
* Go standard-library semantics the repository merely calls
  (`strconv.ParseFloat`, `strconv.Atoi`, `json.Unmarshal` into `[]string`,
  `regexp.Compile`/`MatchString`, `time.Parse`) are collected in a `Lib`
  record and quantified over; a small concrete instance is provided for
  evaluating theorems on concrete inputs.
-/

namespace GreatTransport

/-- Go `int(f)` conversion for a `float64` value: truncation toward zero. -/
def floatToInt (q : ℚ) : ℤ :=
  if 0 ≤ q then ⌊q⌋ else ⌈q⌉

/-- SQL `COALESCE(a, b)` where `a` may be `NULL` and `b` is non-`NULL`. -/
def sqlCoalesce {α : Type} (a : Option α) (b : α) : α :=
  a.getD b

/-- SQL `COALESCE(a, b)` where both operands may be `NULL`. -/
def sqlCoalesceOpt {α : Type} (a b : Option α) : Option α :=
  match a with
  | some x => some x
  | none => b

/-- Embeds `ComputeVelocity` (metrics helper file): views per hour since
publish; 0 when `publishedAt` is nil or `views` is 0; the hour count is
clamped below at 1 before dividing. `now` makes the Go `time.Since`
explicit. -/
def ComputeVelocity (now : ℚ) (views : ℤ) (publishedAt : Option ℚ) : ℚ :=
  match publishedAt with
  | none => 0
  | some publishTime =>
    if views = 0 then 0
    else
      let hours := now - publishTime
      let hours := if hours < 1 then 1 else hours
      (views : ℚ) / hours

/-- Embeds `ComputeEngagement`: `(likes + comments) / views`, 0 when
`views` is 0. -/
def ComputeEngagement (views likes comments : ℤ) : ℚ :=
  if views = 0 then 0
  else ((likes + comments : ℤ) : ℚ) / (views : ℚ)

/-- Embeds `FirstOrEmpty`: first element of a slice or `""`. -/
def FirstOrEmpty (s : List String) : String :=
  match s with
  | [] => ""
  | x :: _ => x

/-- Embeds the Go struct `VideoCandidate` (repository.go). `discoveredAt`
is the stored `discovered_at` column on table rows; on values passed to
`UpsertCandidate` it is ignored, as in the source. -/
structure VideoCandidate where
  videoId : String
  channelId : String
  title : String
  description : String
  durationSeconds : ℤ
  viewCount : ℤ
  likeCount : ℤ
  commentCount : ℤ
  publishedAt : Option ℚ
  discoveredAt : ℚ
  thumbnailUrl : String
  tags : List String
  category : String
  language : String
  viewVelocity : ℚ
  engagementRate : ℚ
  deriving DecidableEq, Repr

/-- Embeds the Go struct `FilterRule` (repository.go). -/
structure FilterRule where
  id : ℤ
  ruleName : String
  ruleType : String
  field : String
  value : String
  isActive : Bool
  priority : ℤ
  deriving DecidableEq, Repr

/-- Embeds the Go struct `RuleDecision` (repository.go). -/
structure RuleDecision where
  id : ℕ
  videoId : String
  rulePassed : Bool
  rejectRuleName : String
  rejectReason : String
  evaluatedAt : ℚ
  deriving DecidableEq, Repr

/-- Standard-library semantics the rule engine and scanner call but do not
implement: `parseFloat` is `strconv.ParseFloat(v, 64)`, `atoi` is
`strconv.Atoi`, `parseStringList` is `json.Unmarshal` into `[]string`,
`regexMatch v` is `regexp.Compile(v)` (`none` when compilation fails,
otherwise the compiled `MatchString`), and `ytDate` is
`time.Parse("20060102", s)` as wrapped by `ParseYTDate` (returning the
instant of the parsed UTC midnight). Theorems quantify over this record. -/
structure Lib where
  parseFloat : String → Option ℚ
  atoi : String → Option ℤ
  parseStringList : String → Option (List String)
  regexMatch : String → Option (String → Bool)
  ytDate : String → Option ℚ

/-- Shared numeric-field switch of `evaluateMin` and `evaluateMax`
(rules.go duplicates this `switch rule.Field` block inline in both
functions); `none` is the `default` branch. -/
def numericField (field : String) (c : VideoCandidate) : Option ℚ :=
  match field with
  | "view_count" => some (c.viewCount : ℚ)
  | "like_count" => some (c.likeCount : ℚ)
  | "comment_count" => some (c.commentCount : ℚ)
  | "duration_seconds" => some (c.durationSeconds : ℚ)
  | "view_velocity" => some c.viewVelocity
  | "engagement_rate" => some c.engagementRate
  | _ => none

/-- Shared string-field switch of `evaluateBlocklist` and
`evaluateAllowlist` (duplicated inline in the source). -/
def stringField (field : String) (c : VideoCandidate) : Option String :=
  match field with
  | "category" => some c.category
  | "language" => some c.language
  | "channel_id" => some c.channelId
  | _ => none

/-- Field switch of `evaluateRegex`. -/
def regexField (field : String) (c : VideoCandidate) : Option String :=
  match field with
  | "title" => some c.title
  | "description" => some c.description
  | "category" => some c.category
  | _ => none

/-- Embeds `RuleEngine.evaluateMin` (rules.go): invalid threshold or
unknown field passes; otherwise fail exactly when `actual < threshold`.
The rejection string mirrors the `fmt.Sprintf` format (numeric rendering
via `toString` on exact rationals stands in for Go `%v` on floats). -/
def evaluateMin (lib : Lib) (rule : FilterRule) (c : VideoCandidate) : Bool × String :=
  match lib.parseFloat rule.value with
  | none => (true, "")
  | some threshold =>
    match numericField rule.field c with
    | none => (true, "")
    | some actual =>
      if actual < threshold then
        (false, rule.field ++ " (" ++ toString actual ++ ") below minimum (" ++ toString threshold ++ ")")
      else (true, "")

/-- Embeds `RuleEngine.evaluateMax`: fail exactly when
`actual > threshold`. -/
def evaluateMax (lib : Lib) (rule : FilterRule) (c : VideoCandidate) : Bool × String :=
  match lib.parseFloat rule.value with
  | none => (true, "")
  | some threshold =>
    match numericField rule.field c with
    | none => (true, "")
    | some actual =>
      if threshold < actual then
        (false, rule.field ++ " (" ++ toString actual ++ ") exceeds maximum (" ++ toString threshold ++ ")")
      else (true, "")

/-- Embeds `RuleEngine.evaluateBlocklist`: invalid JSON list or unknown
field passes; otherwise reject when the field value is in the list,
case-insensitively (`strings.ToLower` on both sides). -/
def evaluateBlocklist (lib : Lib) (rule : FilterRule) (c : VideoCandidate) : Bool × String :=
  match lib.parseStringList rule.value with
  | none => (true, "")
  | some blocklist =>
    match stringField rule.field c with
    | none => (true, "")
    | some fieldValue =>
      let fieldLower := fieldValue.toLower
      if blocklist.any (fun blocked => blocked.toLower = fieldLower) then
        (false, rule.field ++ " \x27" ++ fieldValue ++ "\x27 is blocked")
      else (true, "")

/-- Embeds `RuleEngine.evaluateAllowlist`: invalid JSON list or unknown
field passes; an empty list allows everything; otherwise accept exactly
the case-insensitive members. -/
def evaluateAllowlist (lib : Lib) (rule : FilterRule) (c : VideoCandidate) : Bool × String :=
  match lib.parseStringList rule.value with
  | none => (true, "")
  | some allowlist =>
    if allowlist.isEmpty then (true, "")
    else
      match stringField rule.field c with
      | none => (true, "")
      | some fieldValue =>
        let fieldLower := fieldValue.toLower
        if allowlist.any (fun allowed => allowed.toLower = fieldLower) then
          (true, "")
        else
          (false, rule.field ++ " \x27" ++ fieldValue ++ "\x27 is not in allowed list")

/-- Embeds `RuleEngine.evaluateRegex`: an uncompilable pattern or unknown
field passes; otherwise reject when the pattern matches. -/
def evaluateRegex (lib : Lib) (rule : FilterRule) (c : VideoCandidate) : Bool × String :=
  match lib.regexMatch rule.value with
  | none => (true, "")
  | some matcher =>
    match regexField rule.field c with
    | none => (true, "")
    | some fieldValue =>
      if matcher fieldValue then
        (false, rule.field ++ " matches blocked pattern \x27" ++ rule.value ++ "\x27")
      else (true, "")

/-- Embeds `RuleEngine.evaluateAgeDays`: non-integer value or nil publish
date passes; otherwise reject when `int(age.Hours() / 24) > maxDays`. -/
def evaluateAgeDays (lib : Lib) (now : ℚ) (rule : FilterRule) (c : VideoCandidate) : Bool × String :=
  match lib.atoi rule.value with
  | none => (true, "")
  | some maxDays =>
    match c.publishedAt with
    | none => (true, "")
    | some publishTime =>
      let age := now - publishTime
      let ageDays := floatToInt (age / 24)
      if maxDays < ageDays then
        (false, "video age (" ++ toString ageDays ++ " days) exceeds maximum (" ++ toString maxDays ++ " days)")
      else (true, "")

/-- Embeds `RuleEngine.evaluateRule`: dispatch on the rule type; unknown
types pass. The pair is the Go pair `(passed, reason)`; the function is total, so
rule evaluation itself can never fail on candidate content. -/
def evaluateRule (lib : Lib) (now : ℚ) (rule : FilterRule) (c : VideoCandidate) : Bool × String :=
  match rule.ruleType with
  | "min" => evaluateMin lib rule c
  | "max" => evaluateMax lib rule c
  | "blocklist" => evaluateBlocklist lib rule c
  | "allowlist" => evaluateAllowlist lib rule c
  | "regex" => evaluateRegex lib rule c
  | "age_days" => evaluateAgeDays lib now rule c
  | _ => (true, "")

/-- Models the `rule_decisions` table: append-only rows plus the next
`AUTOINCREMENT` id. -/
structure DecisionTable where
  rows : List RuleDecision
  nextId : ℕ
  deriving DecidableEq, Repr

/-- Embeds `SQLiteStore.RecordRuleDecision` (store.go): plain `INSERT`;
the id of the row is assigned by `AUTOINCREMENT`, the caller-supplied id is
ignored. -/
def RecordRuleDecision (tbl : DecisionTable) (d : RuleDecision) : DecisionTable :=
  { rows := tbl.rows ++ [{ d with id := tbl.nextId }], nextId := tbl.nextId + 1 }

/-- Embeds `SQLiteStore.GetRuleDecision` (store.go): the SQL is
`WHERE video_id = ? ORDER BY evaluated_at DESC LIMIT 1`. The model keeps
the first row encountered among those with maximal `evaluated_at`; SQLite
leaves the order of equal sort keys unspecified, and the claims settled
here do not depend on the tie choice. -/
def GetRuleDecision (tbl : DecisionTable) (videoId : String) : Option RuleDecision :=
  (tbl.rows.filter (fun r => r.videoId = videoId)).foldl
    (fun best r =>
      match best with
      | none => some r
      | some b => if b.evaluatedAt < r.evaluatedAt then some r else some b)
    none

/-- Models the composite rule ordering of `RuleEngine.Evaluate`:
`ListActiveRules` returns rows `ORDER BY priority DESC, rule_name` and
`Evaluate` then re-sorts with `sort.Slice` on priority alone. The model is
a stable insertion sort by priority descending; the unstable Go sort may
permute rules of equal priority, and the claims settled here do not depend
on the order within a priority tie. -/
def insertRule (r : FilterRule) : List FilterRule → List FilterRule
  | [] => [r]
  | x :: xs => if r.priority ≤ x.priority then x :: insertRule r xs else r :: x :: xs

/-- Sorts rules by priority descending (see `insertRule`). -/
def sortRules : List FilterRule → List FilterRule
  | [] => []
  | r :: rs => insertRule r (sortRules rs)

/-- The short-circuiting loop body of `RuleEngine.Evaluate`: the first
rule that fails, with its reason; `none` when every rule passes. -/
def firstFailing (lib : Lib) (now : ℚ) (c : VideoCandidate) : List FilterRule → Option (FilterRule × String)
  | [] => none
  | r :: rest =>
    let e := evaluateRule lib now r c
    if e.1 then firstFailing lib now c rest else some (r, e.2)

/-- Embeds `RuleEngine.Evaluate` (rules.go): sort the active rules by
priority descending, apply in order, record a rejecting decision at the
first failure or a passing decision when all pass; exactly one row is
recorded either way. `rules` is the `ListActiveRules` result and `now` the
`time.Now()` used for `EvaluatedAt`; the id field of the returned struct is
zero, as in Go (the database id is assigned on insert). -/
def Evaluate (lib : Lib) (now : ℚ) (rules : List FilterRule) (c : VideoCandidate)
    (tbl : DecisionTable) : RuleDecision × DecisionTable :=
  match firstFailing lib now c (sortRules rules) with
  | some (r, reason) =>
    let decision : RuleDecision :=
      { id := 0, videoId := c.videoId, rulePassed := false,
        rejectRuleName := r.ruleName, rejectReason := reason, evaluatedAt := now }
    (decision, RecordRuleDecision tbl decision)
  | none =>
    let decision : RuleDecision :=
      { id := 0, videoId := c.videoId, rulePassed := true,
        rejectRuleName := "", rejectReason := "", evaluatedAt := now }
    (decision, RecordRuleDecision tbl decision)

/-- Embeds the Go struct `Channel` (repository.go); also the shape of a
`channels` row (`name` is bound from a non-nil Go string, so the model
keeps it non-optional). -/
structure Channel where
  channelId : String
  name : String
  url : String
  subscriberCount : ℤ
  videoCount : ℤ
  lastScannedAt : Option ℚ
  scanFrequencyHours : ℤ
  isActive : Bool
  createdAt : ℚ
  deriving DecidableEq, Repr

/-- The `channels` table. -/
abbrev ChannelTable := List Channel

/-- Embeds `SQLiteStore.AddChannel` (store.go). On conflict the SQL sets
`name = COALESCE(excluded.name, channels.name)` and likewise for the two
counts; the excluded values are bound from Go `string` / `int` arguments
and are therefore never `NULL`, which the model renders as
`sqlCoalesce (some _) _`. `is_active` is forced to 1; `url` is
overwritten; `created_at`, `last_scanned_at` and `scan_frequency_hours`
are untouched. On a fresh insert `last_scanned_at` is not among the
inserted columns (`NULL`) and `created_at` is bound to `time.Now()`
(`now`). -/
def AddChannel (now : ℚ) (ch : Channel) (tbl : ChannelTable) : ChannelTable :=
  if tbl.any (fun r => r.channelId = ch.channelId) then
    tbl.map (fun r =>
      if r.channelId = ch.channelId then
        { r with
          name := sqlCoalesce (some ch.name) r.name,
          url := ch.url,
          subscriberCount := sqlCoalesce (some ch.subscriberCount) r.subscriberCount,
          videoCount := sqlCoalesce (some ch.videoCount) r.videoCount,
          isActive := true }
      else r)
  else
    tbl ++ [{ ch with lastScannedAt := none, createdAt := now }]

/-- Embeds `SQLiteStore.GetChannel`: lookup by primary key (the read-side
`scan_frequency_hours = 0 → 6` defaulting is a presentation detail not
needed by any claim and is left on the row). -/
def GetChannel (tbl : ChannelTable) (channelId : String) : Option Channel :=
  tbl.find? (fun r => r.channelId = channelId)

/-- Embeds `SQLiteStore.UpdateChannelScanned`: set `last_scanned_at` to
now for the given channel. -/
def UpdateChannelScanned (now : ℚ) (channelId : String) (tbl : ChannelTable) : ChannelTable :=
  tbl.map (fun r => if r.channelId = channelId then { r with lastScannedAt := some now } else r)

/-- Embeds `SQLiteStore.ListActiveChannels`: `WHERE is_active = 1`. The
SQL also orders by `created_at`; the claims settled here are about which
channels appear, not their order, so the model keeps table order. -/
def ListActiveChannels (tbl : ChannelTable) : List Channel :=
  tbl.filter (fun r => r.isActive)

/-- The `video_candidates` table (rows reuse the `VideoCandidate` shape;
`tags` keeps the ordered list that Go round-trips through a JSON array). -/
abbrev CandidateTable := List VideoCandidate

/-- Embeds `SQLiteStore.UpsertCandidate` (store.go): insert keyed by
`video_id`; on conflict update exactly the listed columns — `title`,
`description`, `duration_seconds`, the three counts, `thumbnail_url`,
`tags`, `category`, `language` and the two computed metrics. Neither
`channel_id`, `published_at`, nor `discovered_at` is in the update list.
On insert `discovered_at` is filled by the column default
`CURRENT_TIMESTAMP` (`now`). -/
def UpsertCandidate (now : ℚ) (vc : VideoCandidate) (tbl : CandidateTable) : CandidateTable :=
  if tbl.any (fun r => r.videoId = vc.videoId) then
    tbl.map (fun r =>
      if r.videoId = vc.videoId then
        { r with
          title := vc.title,
          description := vc.description,
          durationSeconds := vc.durationSeconds,
          viewCount := vc.viewCount,
          likeCount := vc.likeCount,
          commentCount := vc.commentCount,
          thumbnailUrl := vc.thumbnailUrl,
          tags := vc.tags,
          category := vc.category,
          language := vc.language,
          viewVelocity := vc.viewVelocity,
          engagementRate := vc.engagementRate }
      else r)
  else
    tbl ++ [{ vc with discoveredAt := now }]

/-- Embeds `SQLiteStore.GetCandidate`: lookup by primary key. -/
def GetCandidate (tbl : CandidateTable) (videoId : String) : Option VideoCandidate :=
  tbl.find? (fun r => r.videoId = videoId)

/-- Embeds the `uploads` row: `bilibili_bvid` is a genuinely nullable
column (`sql.NullString` on read). -/
structure Upload where
  videoId : String
  channelId : String
  bilibiliBvid : Option String
  uploadedAt : ℚ
  deriving DecidableEq, Repr

/-- The `uploads` table. -/
abbrev UploadTable := List Upload

/-- Embeds `nullableString` (store.go): empty Go strings bind as SQL
`NULL`. -/
def nullableString (s : String) : Option String :=
  if s = "" then none else some s

/-- Embeds `SQLiteStore.IsUploaded`: `COUNT(1) > 0` for the video id. -/
def IsUploaded (tbl : UploadTable) (videoId : String) : Bool :=
  tbl.any (fun r => r.videoId = videoId)

/-- Embeds `SQLiteStore.MarkUploadedWithBvid` (store.go): empty
`channelID` becomes the sentinel `"unknown"`; upsert keyed by `video_id`;
on conflict `channel_id` and `uploaded_at` come from the new row while
`bilibili_bvid = COALESCE(excluded.bilibili_bvid, uploads.bilibili_bvid)`
with the excluded value bound through `nullableString`. -/
def MarkUploadedWithBvid (now : ℚ) (videoId channelID bilibiliBvid : String)
    (tbl : UploadTable) : UploadTable :=
  let chanId := if channelID = "" then "unknown" else channelID
  if tbl.any (fun r => r.videoId = videoId) then
    tbl.map (fun r =>
      if r.videoId = videoId then
        { r with
          channelId := chanId,
          bilibiliBvid := sqlCoalesceOpt (nullableString bilibiliBvid) r.bilibiliBvid,
          uploadedAt := now }
      else r)
  else
    tbl ++ [{ videoId := videoId, channelId := chanId,
              bilibiliBvid := nullableString bilibiliBvid, uploadedAt := now }]

/-- Embeds `SQLiteStore.MarkUploaded`: delegates with an empty bvid. -/
def MarkUploaded (now : ℚ) (videoId channelID : String) (tbl : UploadTable) : UploadTable :=
  MarkUploadedWithBvid now videoId channelID "" tbl

/-- Embeds `SQLiteStore.GetUpload`: lookup by primary key. -/
def GetUpload (tbl : UploadTable) (videoId : String) : Option Upload :=
  tbl.find? (fun r => r.videoId = videoId)

/-- Embeds the Go struct `VideoMetadata` (downloader adapter file): the
per-video payload of the fetcher. -/
structure VideoMetadata where
  id : String
  title : String
  description : String
  duration : ℤ
  viewCount : ℤ
  likeCount : ℤ
  commentCount : ℤ
  uploadDate : String
  thumbnail : String
  tags : List String
  categories : List String
  channelId : String
  channelTitle : String
  deriving DecidableEq, Repr

/-- The candidate built for one fetched video inside `Scanner.ScanChannel`
(uploader_biliup.go): raw fields copied, `PublishedAt` from `ParseYTDate`,
`Category` from `FirstOrEmpty`, the two metrics computed; `Language` and
`DiscoveredAt` are left at their zero values (the latter is ignored by
`UpsertCandidate`). -/
def candidateOfMetadata (lib : Lib) (now : ℚ) (channelId : String) (v : VideoMetadata) : VideoCandidate :=
  let publishedAt := lib.ytDate v.uploadDate
  { videoId := v.id,
    channelId := channelId,
    title := v.title,
    description := v.description,
    durationSeconds := v.duration,
    viewCount := v.viewCount,
    likeCount := v.likeCount,
    commentCount := v.commentCount,
    publishedAt := publishedAt,
    discoveredAt := 0,
    thumbnailUrl := v.thumbnail,
    tags := v.tags,
    category := FirstOrEmpty v.categories,
    language := "",
    viewVelocity := ComputeVelocity now v.viewCount publishedAt,
    engagementRate := ComputeEngagement v.viewCount v.likeCount v.commentCount }

/-- Embeds `Scanner.ScanChannel` (uploader_biliup.go) with `AutoFilter`
disabled: resolve the channel (absent ⇒ return 0 and change nothing —
there is no `is_active` check on this path), fetch metadata for the
channel URL, upsert a candidate for each fetched video, then stamp
`last_scanned_at`. `downloader` is `Downloader.GetChannelVideosMetadata`
as a function of the URL and limit; the store of the model never fails, so the
per-video log-and-continue branch does not fire. The optional auto-filter
tail only appends decision rows and touches neither the returned count,
the candidate upserts, nor `last_scanned_at`. -/
def ScanChannel (lib : Lib) (now : ℚ) (downloader : String → ℕ → List VideoMetadata)
    (channelId : String) (limit : ℕ) (channels : ChannelTable) (cands : CandidateTable) :
    ℕ × ChannelTable × CandidateTable :=
  match GetChannel channels channelId with
  | none => (0, channels, cands)
  | some ch =>
    let videos := downloader ch.url limit
    let folded := videos.foldl
      (fun acc v => (acc.1 + 1, UpsertCandidate now (candidateOfMetadata lib now channelId v) acc.2))
      (0, cands)
    (folded.1, UpdateChannelScanned now channelId channels, folded.2)

/-- Embeds `Scanner.ScanAllActive`: scan each channel from
`ListActiveChannels` in turn (per-channel errors are logged and skipped in
Go; the scans of the model do not fail). -/
def ScanAllActive (lib : Lib) (now : ℚ) (downloader : String → ℕ → List VideoMetadata)
    (defaultLimit : ℕ) (channels : ChannelTable) (cands : CandidateTable) :
    ChannelTable × CandidateTable :=
  (ListActiveChannels channels).foldl
    (fun acc ch =>
      let r := ScanChannel lib now downloader ch.channelId defaultLimit acc.1 acc.2
      (r.2.1, r.2.2))
    (channels, cands)

/-- Counters returned by the sync operations of the controller (mirrors the
result struct read by the integration tests: `Considered`, `Skipped`,
`Downloaded`, `Uploaded`). -/
structure SyncResult where
  considered : ℕ
  skipped : ℕ
  downloaded : ℕ
  uploaded : ℕ
  deriving DecidableEq, Repr

/-- One observable side effect of a sync: asking the Fetcher to download a
video, or handing a file to the Publisher. -/
inductive SyncEffect where
  | download (videoId : String)
  | publish (path : String)
  deriving DecidableEq, Repr

/-- Modelled from the spec: publishing the files of one downloaded video
(spec §4.4 step 2c — the `app.Controller` type of the repository is referenced by
`cmd/yttransfer/main.go` and the integration tests but its source file is
not under src/). Publish each path in order; an error aborts; the platform
id of the last successful publish is kept for `mark_uploaded`.
`publish path` returns `none` on error, otherwise the optional platform
video id. -/
def publishFiles (publish : String → Option (Option String)) :
    List String → List SyncEffect × Option (Option String)
  | [] => ([], some none)
  | f :: fs =>
    match publish f with
    | none => ([SyncEffect.publish f], none)
    | some pid =>
      let rest := publishFiles publish fs
      (SyncEffect.publish f :: rest.1,
       match rest.2 with
       | none => none
       | some acc => some (match acc with | some x => some x | none => pid))

/-- Modelled from the spec: the per-id loop of `sync_channel` (spec §4.4
steps 2a-2e; `app.Controller.SyncChannel` is absent from src/). For each
id in order: skip when `is_uploaded`; otherwise download (`none` is an
error and aborts with the counts so far), publish every returned file
(an error aborts without marking), then `mark_uploaded` and count the
video as downloaded and uploaded. The effect log records every download
and publish attempted; the final `Bool` is true when the sync aborted on
an error. -/
def syncIds (now : ℚ) (channelId : String)
    (download : String → Option (List String)) (publish : String → Option (Option String)) :
    List String → UploadTable → SyncResult × UploadTable × List SyncEffect × Bool
  | [], ups => (⟨0, 0, 0, 0⟩, ups, [], false)
  | id :: rest, ups =>
    if IsUploaded ups id then
      let r := syncIds now channelId download publish rest ups
      ({ r.1 with skipped := r.1.skipped + 1 }, r.2.1, r.2.2.1, r.2.2.2)
    else
      match download id with
      | none => (⟨0, 0, 0, 0⟩, ups, [SyncEffect.download id], true)
      | some files =>
        let pubbed := publishFiles publish files
        match pubbed.2 with
        | none => (⟨0, 0, 0, 0⟩, ups, SyncEffect.download id :: pubbed.1, true)
        | some platformId =>
          let ups2 := MarkUploadedWithBvid now id channelId (platformId.getD "") ups
          let r := syncIds now channelId download publish rest ups2
          ({ r.1 with downloaded := r.1.downloaded + 1, uploaded := r.1.uploaded + 1 },
           r.2.1, SyncEffect.download id :: pubbed.1 ++ r.2.2.1, r.2.2.2)

/-- Modelled from the spec: `sync_channel(channel_id, limit)` (spec §4.4;
`app.Controller.SyncChannel` is absent from src/). `ids` is the Fetcher result of
`list_channel_video_ids` for the channel (at most `limit` entries);
`considered` is its length, and the ids are processed in order by
`syncIds`. -/
def SyncChannel (now : ℚ) (channelId : String)
    (download : String → Option (List String)) (publish : String → Option (Option String))
    (ids : List String) (ups : UploadTable) :
    SyncResult × UploadTable × List SyncEffect × Bool :=
  let r := syncIds now channelId download publish ids ups
  ({ r.1 with considered := ids.length }, r.2.1, r.2.2.1, r.2.2.2)

/-- Numeric value of a decimal digit character. -/
def digitVal (c : Char) : Option ℕ :=
  if c.isDigit then some (c.toNat - 48) else none

/-- Accumulates a digit string into a natural number; `none` on any
non-digit. -/
def natOfDigitsAux : List Char → ℕ → Option ℕ
  | [], acc => some acc
  | c :: cs, acc =>
    match digitVal c with
    | none => none
    | some d => natOfDigitsAux cs (10 * acc + d)

/-- Parses a non-empty digit string. -/
def natOfDigits (cs : List Char) : Option ℕ :=
  match cs with
  | [] => none
  | _ => natOfDigitsAux cs 0

/-- Applies an optional leading minus sign. -/
def applySign (neg : Bool) (q : ℚ) : ℚ :=
  if neg then -q else q

/-- Concrete stand-in for `strconv.ParseFloat` on plain decimal literals
(sign, digits, optional fraction); used only to instantiate `Lib` when
evaluating theorems on concrete inputs — the theorems themselves quantify
over the parser. -/
def parseDecimal (s : String) : Option ℚ :=
  let signed : Bool × List Char :=
    match s.toList with
    | '-' :: rest => (true, rest)
    | rest => (false, rest)
  let intPart := signed.2.takeWhile (fun c => c ≠ '.')
  let rest := signed.2.dropWhile (fun c => c ≠ '.')
  match rest with
  | [] => (natOfDigits intPart).map (fun n => applySign signed.1 (n : ℚ))
  | _ :: fracPart =>
    match natOfDigits intPart, natOfDigits fracPart with
    | some ip, some fp =>
      some (applySign signed.1 ((ip : ℚ) + (fp : ℚ) / ((10 : ℚ) ^ fracPart.length)))
    | _, _ => none

/-- Concrete stand-in for `strconv.Atoi` (sign and digits); used only to
instantiate `Lib` for concrete evaluation. -/
def parseInteger (s : String) : Option ℤ :=
  match s.toList with
  | '-' :: rest => (natOfDigits rest).map (fun n => -(n : ℤ))
  | cs => (natOfDigits cs).map (fun n => (n : ℤ))

/-- A concrete `Lib` for evaluating the development on concrete inputs:
decimal parsers as above; the JSON-list and regex compilers reject every
input (standing for values those compilers fail on); dates resolve
through `parseInteger`. -/
def exLib : Lib where
  parseFloat := parseDecimal
  atoi := parseInteger
  parseStringList := fun _ => none
  regexMatch := fun _ => none
  ytDate := fun s => (parseInteger s).map (fun n => (n : ℚ))

/-- A concrete `Lib` whose list parser accepts a fixed singleton list and
whose regex matcher looks for a fixed marker substring; used for concrete
evaluation of the blocklist and regex paths. -/
def exLib2 : Lib where
  parseFloat := parseDecimal
  atoi := parseInteger
  parseStringList := fun s => if s = "[\x22News & Politics\x22]" then some ["News & Politics"] else none
  regexMatch := fun p =>
    if p = "(?i)sponsored" then some (fun s => (s.toLower.splitOn "sponsored").length > 1) else none
  ytDate := fun s => (parseInteger s).map (fun n => (n : ℚ))

/-- A baseline candidate for concrete evaluations. -/
def baseCand : VideoCandidate :=
  { videoId := "v", channelId := "UC_K", title := "Test Video", description := "",
    durationSeconds := 300, viewCount := 5000, likeCount := 50, commentCount := 10,
    publishedAt := some 0, discoveredAt := 0, thumbnailUrl := "", tags := [],
    category := "Entertainment", language := "", viewVelocity := 0, engagementRate := 0 }

/-- A candidate sitting exactly at a `min_views = 1000` threshold. -/
def c6CandMin : VideoCandidate := { baseCand with viewCount := 1000 }

/-- A candidate sitting exactly at a `max_duration = 3600` threshold. -/
def c6CandMax : VideoCandidate := { baseCand with durationSeconds := 3600 }

/-- A candidate published exactly 30 whole days before the evaluation
instant 1000 (hours). -/
def c6CandAge : VideoCandidate := { baseCand with publishedAt := some (1000 - 24 * 30) }

/-- A candidate with no publish date. -/
def c6CandNoDate : VideoCandidate := { baseCand with publishedAt := none }

/-- A `min` rule whose value is not numeric. -/
def c8RuleBadMin : FilterRule :=
  { id := 0, ruleName := "bad_min", ruleType := "min", field := "view_count",
    value := "not-a-number", isActive := true, priority := 10 }

/-- A `blocklist` rule whose value is not a JSON string list. -/
def c8RuleBadList : FilterRule :=
  { id := 0, ruleName := "bad_list", ruleType := "blocklist", field := "category",
    value := "not json", isActive := true, priority := 10 }

/-- A `max` rule on an unrecognized field. -/
def c8RuleBadField : FilterRule :=
  { id := 0, ruleName := "bad_field", ruleType := "max", field := "no_such_field",
    value := "10", isActive := true, priority := 10 }

/-- A rule of unknown type. -/
def c8RuleBadType : FilterRule :=
  { id := 0, ruleName := "bad_type", ruleType := "no_such_type", field := "view_count",
    value := "10", isActive := true, priority := 10 }

/-- An `age_days` rule whose value is not an integer. -/
def c8RuleBadAge : FilterRule :=
  { id := 0, ruleName := "bad_age", ruleType := "age_days", field := "published_at",
    value := "thirty", isActive := true, priority := 10 }

/-- A `min_views = 1000` rule at priority 100. -/
def c5MinRule : FilterRule :=
  { id := 0, ruleName := "min_views", ruleType := "min", field := "view_count",
    value := "1000", isActive := true, priority := 100 }

/-- A regex rule blocking sponsored titles at priority 50. -/
def c5RegexRule : FilterRule :=
  { id := 0, ruleName := "block_sponsored", ruleType := "regex", field := "title",
    value := "(?i)sponsored", isActive := true, priority := 50 }

/-- The two rules of the priority tie-break scenario, deliberately given
out of priority order. -/
def c5Rules : List FilterRule := [c5RegexRule, c5MinRule]

/-- A sponsored low-view candidate that fails both rules. -/
def c5Cand : VideoCandidate :=
  { baseCand with title := "Sponsored Low Views", viewCount := 100 }

/-- A decision table holding two decisions for candidate `"v"`: the row
with id 1 has the later `evaluated_at` (2) and the row with id 2 the
earlier one (1). -/
def c1Table : DecisionTable :=
  RecordRuleDecision
    (RecordRuleDecision { rows := [], nextId := 1 }
      { id := 0, videoId := "v", rulePassed := true, rejectRuleName := "",
        rejectReason := "", evaluatedAt := 2 })
    { id := 0, videoId := "v", rulePassed := false, rejectRuleName := "min_views",
      rejectReason := "low", evaluatedAt := 1 }

/-- First-scan version of a candidate (published at instant 10). -/
def c2First : VideoCandidate :=
  { baseCand with title := "Original", viewCount := 1000, publishedAt := some 10 }

/-- Rescan version of the same candidate: new title, counts and publish
date. -/
def c2Second : VideoCandidate :=
  { c2First with title := "Updated", viewCount := 10000, publishedAt := some 20 }

/-- The candidate table after upserting both versions in order. -/
def c2Tbl : CandidateTable := UpsertCandidate 7 c2Second (UpsertCandidate 5 c2First [])

/-- A channel as first added: non-empty name, non-zero counts. -/
def c3First : Channel :=
  { channelId := "c", name := "Original Name", url := "u", subscriberCount := 5,
    videoCount := 7, lastScannedAt := none, scanFrequencyHours := 6,
    isActive := true, createdAt := 0 }

/-- The same channel re-added with an empty name and zero counts. -/
def c3Second : Channel :=
  { c3First with name := "", url := "u2", subscriberCount := 0, videoCount := 0 }

/-- The channel table after adding both versions in order. -/
def c3Tbl : ChannelTable := AddChannel 1 c3Second (AddChannel 0 c3First [])

/-- An inactive channel present in the store. -/
def c10Chan : Channel :=
  { channelId := "UC_I", name := "Inactive", url := "iu", subscriberCount := 1,
    videoCount := 1, lastScannedAt := none, scanFrequencyHours := 6,
    isActive := false, createdAt := 0 }

/-- One fetched video for the inactive channel. -/
def c10Meta : VideoMetadata :=
  { id := "vid_i", title := "T", description := "", duration := 300, viewCount := 10,
    likeCount := 1, commentCount := 0, uploadDate := "", thumbnail := "", tags := [],
    categories := ["Music"], channelId := "UC_I", channelTitle := "Inactive" }

/-- A fetcher returning that one video for any URL and limit. -/
def c10Downloader : String → ℕ → List VideoMetadata := fun _ _ => [c10Meta]

/-- An uploads table where video `"vA"` is already recorded. -/
def c4Ups : UploadTable := [{ videoId := "vA", channelId := "K", bilibiliBvid := none, uploadedAt := 0 }]

/-- Helper: a string with a non-empty right append component is
non-empty. -/
theorem append_ne_empty_right (a b : String) (hb : b ≠ "") : a ++ b ≠ "" := by
  intro h
  apply hb
  have hl := congrArg String.length h
  rw [String.length_append] at hl
  have hz : ("" : String).length = 0 := rfl
  have hb0 : b.length = 0 := by omega
  cases b with
  | mk data =>
    simp [String.length] at hb0
    simp [hb0]

/-- Helper: `sqlCoalesce` of a present value. -/
theorem sqlCoalesce_some {α : Type} (x y : α) : sqlCoalesce (some x) y = x := rfl

/-- Helper: truncation of an integer-valued rational is the integer. -/
theorem floatToInt_intCast (n : ℤ) : floatToInt (n : ℚ) = n := by
  unfold floatToInt
  split
  · exact Int.floor_intCast n
  · exact Int.ceil_intCast n

/-- Helper: `find?` by key over a keyed update commutes to a `map` on the
result, provided the update preserves the key. -/
theorem find?_key_update {α : Type} (key : α → String) (upd : α → α) (k : String)
    (hkey : ∀ a, key (upd a) = key a) (l : List α) :
    (l.map (fun r => if key r = k then upd r else r)).find? (fun r => key r = k)
      = (l.find? (fun r => key r = k)).map upd := by
  induction l with
  | nil => rfl
  | cons a l ih =>
    simp only [List.map_cons]
    by_cases h : key a = k
    · rw [if_pos h, List.find?_cons_of_pos _ (by simp [hkey, h]),
        List.find?_cons_of_pos _ (by simp [h])]
      rfl
    · rw [if_neg h, List.find?_cons_of_neg _ (by simp [h]),
        List.find?_cons_of_neg _ (by simp [h])]
      exact ih

/-- Helper: a successful `find?` makes `any` true. -/
theorem any_eq_true_of_find?_some {α : Type} {p : α → Bool} {l : List α} {a : α}
    (h : l.find? p = some a) : l.any p = true := by
  rw [List.any_eq_true]
  exact ⟨a, List.mem_of_find?_eq_some h, List.find?_some h⟩

/-- Helper: an empty `find?` makes `any` false. -/
theorem any_eq_false_of_find?_none {α : Type} {p : α → Bool} {l : List α}
    (h : l.find? p = none) : l.any p = false := by
  rw [List.find?_eq_none] at h
  cases ha : l.any p
  · rfl
  · rw [List.any_eq_true] at ha
    obtain ⟨x, hx, hpx⟩ := ha
    exact absurd hpx (h x hx)

/-- C7: for every scanned video the computed metrics satisfy
`view_velocity = views / max(1, hours since published_at)` with result 0
when `published_at` is null or `views` is 0, and
`engagement_rate = (likes + comments) / views` with result 0 when `views`
is 0; the denominator of each division is non-zero, so neither computation can
divide by zero. -/
theorem claim_C7 : ∀ (now : ℚ) (views likes comments : ℤ) (publishedAt : Option ℚ),
    (publishedAt = none ∨ views = 0 → ComputeVelocity now views publishedAt = 0) ∧
    (∀ t : ℚ, publishedAt = some t → views ≠ 0 →
      ComputeVelocity now views publishedAt = (views : ℚ) / max 1 (now - t) ∧
      max 1 (now - t) ≠ 0) ∧
    (views = 0 → ComputeEngagement views likes comments = 0) ∧
    (views ≠ 0 → ComputeEngagement views likes comments = ((likes + comments : ℤ) : ℚ) / (views : ℚ) ∧
      ((views : ℚ) ≠ 0)) := by
  intro now views likes comments publishedAt
  refine ⟨?_, ?_, ?_, ?_⟩
  · rintro (h | h)
    · rw [h]
      rfl
    · cases publishedAt <;> simp [ComputeVelocity, h]
  · intro t ht hv
    subst ht
    constructor
    · simp only [ComputeVelocity, if_neg hv]
      rcases lt_or_le (now - t) 1 with h | h
      · rw [if_pos h, max_eq_left h.le]
      · rw [if_neg (not_lt.mpr h), max_eq_right h]
    · exact ne_of_gt (lt_of_lt_of_le zero_lt_one (le_max_left 1 (now - t)))
  · intro h
    simp [ComputeEngagement, h]
  · intro h
    refine ⟨by simp [ComputeEngagement, h], ?_⟩
    exact_mod_cast h

/-- Witness for C7 at concrete inputs. -/
theorem claim_C7_witness :
    ComputeVelocity 25 100 (some 1) = (100 : ℚ) / max 1 (25 - 1) ∧
    ComputeVelocity 25 100 none = 0 ∧
    ComputeEngagement 0 5 3 = 0 ∧
    ComputeEngagement 100 5 3 = ((5 + 3 : ℤ) : ℚ) / (100 : ℚ) :=
  ⟨((claim_C7 25 100 5 3 (some 1)).2.1 1 rfl (by decide)).1,
   (claim_C7 25 100 5 3 none).1 (Or.inl rfl),
   (claim_C7 25 0 5 3 none).2.2.1 rfl,
   ((claim_C7 25 100 5 3 none).2.2.2 (by decide)).1⟩

/-- C6: `min` and `max` comparisons are non-strict — a candidate whose
recognized numeric field equals the parsed threshold exactly passes the
rule; an `age_days` rule with parsed value `T` passes a candidate
published exactly `T` whole days (`24·T` hours) before now, and a null
`published_at` always passes `age_days`. -/
theorem claim_C6 : ∀ (lib : Lib) (now : ℚ) (rule : FilterRule) (c : VideoCandidate) (t : ℚ) (T : ℤ),
    (rule.ruleType = "min" → lib.parseFloat rule.value = some t →
      numericField rule.field c = some t → evaluateRule lib now rule c = (true, "")) ∧
    (rule.ruleType = "max" → lib.parseFloat rule.value = some t →
      numericField rule.field c = some t → evaluateRule lib now rule c = (true, "")) ∧
    (rule.ruleType = "age_days" → lib.atoi rule.value = some T →
      c.publishedAt = some (now - 24 * (T : ℚ)) → evaluateRule lib now rule c = (true, "")) ∧
    (rule.ruleType = "age_days" → c.publishedAt = none →
      evaluateRule lib now rule c = (true, "")) := by
  intro lib now rule c t T
  obtain ⟨rid, rname, rtype, rfield, rvalue, ract, rprio⟩ := rule
  refine ⟨?_, ?_, ?_, ?_⟩
  · intro h1 h2 h3
    subst h1
    simp only [evaluateRule, evaluateMin] at h2 h3 ⊢
    rw [h2, h3]
    simp only [lt_irrefl, if_false]
  · intro h1 h2 h3
    subst h1
    simp only [evaluateRule, evaluateMax] at h2 h3 ⊢
    rw [h2, h3]
    simp only [lt_irrefl, if_false]
  · intro h1 h2 h3
    subst h1
    simp only [evaluateRule, evaluateAgeDays] at h2 h3 ⊢
    rw [h2, h3]
    dsimp only
    have hage : (now - (now - 24 * (T : ℚ))) / 24 = (T : ℚ) := by ring
    rw [hage, floatToInt_intCast]
    simp only [lt_irrefl, if_false]
  · intro h1 h2
    subst h1
    simp only [evaluateRule, evaluateAgeDays] at h2 ⊢
    cases lib.atoi rvalue
    · rfl
    · rw [h2]

/-- Witness for C6: a `min` rule at exactly the threshold, a `max` rule at
exactly the threshold, an `age_days` rule at exactly 30 whole days, and a
null publish date. -/
theorem claim_C6_witness :
    evaluateRule exLib 0
      { id := 0, ruleName := "min_views", ruleType := "min", field := "view_count",
        value := "1000", isActive := true, priority := 100 }
      c6CandMin = (true, "") ∧
    evaluateRule exLib 0
      { id := 0, ruleName := "max_duration", ruleType := "max", field := "duration_seconds",
        value := "3600", isActive := true, priority := 80 }
      c6CandMax = (true, "") ∧
    evaluateRule exLib 1000
      { id := 0, ruleName := "max_age_days", ruleType := "age_days", field := "published_at",
        value := "30", isActive := true, priority := 90 }
      c6CandAge = (true, "") ∧
    evaluateRule exLib 1000
      { id := 0, ruleName := "max_age_days", ruleType := "age_days", field := "published_at",
        value := "30", isActive := true, priority := 90 }
      c6CandNoDate = (true, "") := by
  refine ⟨?_, ?_, ?_, ?_⟩
  · exact (claim_C6 exLib 0 _ c6CandMin 1000 0).1 rfl (by decide) (by decide)
  · exact (claim_C6 exLib 0 _ c6CandMax 3600 0).2.1 rfl (by decide) (by decide)
  · exact (claim_C6 exLib 1000 _ c6CandAge 0 30).2.2.1 rfl (by decide)
      (by show some (1000 - 24 * 30 : ℚ) = some (1000 - 24 * ((30 : ℤ) : ℚ)); norm_num)
  · exact (claim_C6 exLib 1000 _ c6CandNoDate 0 30).2.2.2 rfl rfl

/-- C8: a rule whose value cannot be parsed for its type, whose field is
unrecognized for its type, or whose type is unknown passes the candidate
with an empty reason; `evaluateRule` is a total function into
`Bool × String`, so rule evaluation itself can never return an error on
candidate content (only store I/O, outside this function, can fail). -/
theorem claim_C8 : ∀ (lib : Lib) (now : ℚ) (rule : FilterRule) (c : VideoCandidate),
    (rule.ruleType = "min" →
      lib.parseFloat rule.value = none ∨ numericField rule.field c = none →
      evaluateRule lib now rule c = (true, "")) ∧
    (rule.ruleType = "max" →
      lib.parseFloat rule.value = none ∨ numericField rule.field c = none →
      evaluateRule lib now rule c = (true, "")) ∧
    (rule.ruleType = "blocklist" →
      lib.parseStringList rule.value = none ∨ stringField rule.field c = none →
      evaluateRule lib now rule c = (true, "")) ∧
    (rule.ruleType = "allowlist" →
      lib.parseStringList rule.value = none ∨ stringField rule.field c = none →
      evaluateRule lib now rule c = (true, "")) ∧
    (rule.ruleType = "regex" →
      lib.regexMatch rule.value = none ∨ regexField rule.field c = none →
      evaluateRule lib now rule c = (true, "")) ∧
    (rule.ruleType = "age_days" → lib.atoi rule.value = none →
      evaluateRule lib now rule c = (true, "")) ∧
    (rule.ruleType ≠ "min" → rule.ruleType ≠ "max" → rule.ruleType ≠ "blocklist" →
      rule.ruleType ≠ "allowlist" → rule.ruleType ≠ "regex" → rule.ruleType ≠ "age_days" →
      evaluateRule lib now rule c = (true, "")) := by
  intro lib now rule c
  obtain ⟨rid, rname, rtype, rfield, rvalue, ract, rprio⟩ := rule
  refine ⟨?_, ?_, ?_, ?_, ?_, ?_, ?_⟩
  · intro h1 h2
    subst h1
    simp only [evaluateRule, evaluateMin] at h2 ⊢
    rcases h2 with h | h
    · rw [h]
    · cases hp : lib.parseFloat rvalue
      · rfl
      · rw [h]
  · intro h1 h2
    subst h1
    simp only [evaluateRule, evaluateMax] at h2 ⊢
    rcases h2 with h | h
    · rw [h]
    · cases hp : lib.parseFloat rvalue
      · rfl
      · rw [h]
  · intro h1 h2
    subst h1
    simp only [evaluateRule, evaluateBlocklist] at h2 ⊢
    rcases h2 with h | h
    · rw [h]
    · cases hp : lib.parseStringList rvalue
      · rfl
      · rw [h]
  · intro h1 h2
    subst h1
    simp only [evaluateRule, evaluateAllowlist] at h2 ⊢
    rcases h2 with h | h
    · rw [h]
    · cases hp : lib.parseStringList rvalue with
      | none => rfl
      | some l =>
        dsimp only
        cases hemp : l.isEmpty
        · rw [if_neg (by simp [hemp]), h]
        · rw [if_pos (by simp [hemp])]
  · intro h1 h2
    subst h1
    simp only [evaluateRule, evaluateRegex] at h2 ⊢
    rcases h2 with h | h
    · rw [h]
    · cases hp : lib.regexMatch rvalue
      · rfl
      · rw [h]
  · intro h1 h2
    subst h1
    simp only [evaluateRule, evaluateAgeDays] at h2 ⊢
    rw [h2]
  · intro h1 h2 h3 h4 h5 h6
    simp only [evaluateRule]

/-- Witness for C8: a non-numeric `min` value, a non-JSON blocklist, an
unrecognized `max` field, a non-integer `age_days` value, and an unknown
rule type all pass a concrete candidate. -/
theorem claim_C8_witness :
    evaluateRule exLib 0 c8RuleBadMin baseCand = (true, "") ∧
    evaluateRule exLib 0 c8RuleBadList baseCand = (true, "") ∧
    evaluateRule exLib 0 c8RuleBadField baseCand = (true, "") ∧
    evaluateRule exLib 0 c8RuleBadAge baseCand = (true, "") ∧
    evaluateRule exLib 0 c8RuleBadType baseCand = (true, "") := by
  refine ⟨?_, ?_, ?_, ?_, ?_⟩
  · exact (claim_C8 exLib 0 c8RuleBadMin baseCand).1 rfl (Or.inl (by decide))
  · exact (claim_C8 exLib 0 c8RuleBadList baseCand).2.2.1 rfl (Or.inl rfl)
  · exact (claim_C8 exLib 0 c8RuleBadField baseCand).2.1 rfl (Or.inr rfl)
  · exact (claim_C8 exLib 0 c8RuleBadAge baseCand).2.2.2.2.2.1 rfl (by decide)
  · exact (claim_C8 exLib 0 c8RuleBadType baseCand).2.2.2.2.2.2
      (by decide) (by decide) (by decide) (by decide) (by decide) (by decide)

/-- Helper: a failing `evaluateMin` carries a non-empty reason. -/
theorem evaluateMin_reason (lib : Lib) (r : FilterRule) (c : VideoCandidate) (s : String)
    (h : evaluateMin lib r c = (false, s)) : s ≠ "" := by
  unfold evaluateMin at h
  split at h
  · exact absurd h (by simp)
  · split at h
    · exact absurd h (by simp)
    · split at h
      · injection h with h1 h2
        subst h2
        exact append_ne_empty_right _ ")" (by decide)
      · exact absurd h (by simp)

/-- Helper: a failing `evaluateMax` carries a non-empty reason. -/
theorem evaluateMax_reason (lib : Lib) (r : FilterRule) (c : VideoCandidate) (s : String)
    (h : evaluateMax lib r c = (false, s)) : s ≠ "" := by
  unfold evaluateMax at h
  split at h
  · exact absurd h (by simp)
  · split at h
    · exact absurd h (by simp)
    · split at h
      · injection h with h1 h2
        subst h2
        exact append_ne_empty_right _ ")" (by decide)
      · exact absurd h (by simp)

/-- Helper: a failing `evaluateBlocklist` carries a non-empty reason. -/
theorem evaluateBlocklist_reason (lib : Lib) (r : FilterRule) (c : VideoCandidate) (s : String)
    (h : evaluateBlocklist lib r c = (false, s)) : s ≠ "" := by
  unfold evaluateBlocklist at h
  split at h
  · exact absurd h (by simp)
  · split at h
    · exact absurd h (by simp)
    · dsimp only at h
      split at h
      · injection h with h1 h2
        subst h2
        exact append_ne_empty_right _ "\x27 is blocked" (by decide)
      · exact absurd h (by simp)

/-- Helper: a failing `evaluateAllowlist` carries a non-empty reason. -/
theorem evaluateAllowlist_reason (lib : Lib) (r : FilterRule) (c : VideoCandidate) (s : String)
    (h : evaluateAllowlist lib r c = (false, s)) : s ≠ "" := by
  unfold evaluateAllowlist at h
  split at h
  · exact absurd h (by simp)
  · split at h
    · exact absurd h (by simp)
    · split at h
      · exact absurd h (by simp)
      · dsimp only at h
        split at h
        · exact absurd h (by simp)
        · injection h with h1 h2
          subst h2
          exact append_ne_empty_right _ "\x27 is not in allowed list" (by decide)

/-- Helper: a failing `evaluateRegex` carries a non-empty reason. -/
theorem evaluateRegex_reason (lib : Lib) (r : FilterRule) (c : VideoCandidate) (s : String)
    (h : evaluateRegex lib r c = (false, s)) : s ≠ "" := by
  unfold evaluateRegex at h
  split at h
  · exact absurd h (by simp)
  · split at h
    · exact absurd h (by simp)
    · split at h
      · injection h with h1 h2
        subst h2
        exact append_ne_empty_right _ "\x27" (by decide)
      · exact absurd h (by simp)

/-- Helper: a failing `evaluateAgeDays` carries a non-empty reason. -/
theorem evaluateAgeDays_reason (lib : Lib) (now : ℚ) (r : FilterRule) (c : VideoCandidate) (s : String)
    (h : evaluateAgeDays lib now r c = (false, s)) : s ≠ "" := by
  unfold evaluateAgeDays at h
  split at h
  · exact absurd h (by simp)
  · split at h
    · exact absurd h (by simp)
    · dsimp only at h
      split at h
      · injection h with h1 h2
        subst h2
        exact append_ne_empty_right _ " days)" (by decide)
      · exact absurd h (by simp)

/-- Helper: every rejection reason produced by `evaluateRule` is
non-empty. -/
theorem evaluateRule_reason (lib : Lib) (now : ℚ) (r : FilterRule) (c : VideoCandidate) (s : String)
    (h : evaluateRule lib now r c = (false, s)) : s ≠ "" := by
  unfold evaluateRule at h
  split at h
  · exact evaluateMin_reason lib r c s h
  · exact evaluateMax_reason lib r c s h
  · exact evaluateBlocklist_reason lib r c s h
  · exact evaluateAllowlist_reason lib r c s h
  · exact evaluateRegex_reason lib r c s h
  · exact evaluateAgeDays_reason lib now r c s h
  · exact absurd h (by simp)

/-- Helper: `insertRule` permutes to a cons. -/
theorem insertRule_perm (r : FilterRule) (l : List FilterRule) :
    List.Perm (insertRule r l) (r :: l) := by
  induction l with
  | nil => exact List.Perm.refl _
  | cons x xs ih =>
    unfold insertRule
    by_cases h : r.priority ≤ x.priority
    · rw [if_pos h]
      exact (List.Perm.cons x ih).trans (List.Perm.swap r x xs)
    · rw [if_neg h]

/-- Helper: `sortRules` is a permutation. -/
theorem sortRules_perm (l : List FilterRule) : List.Perm (sortRules l) l := by
  induction l with
  | nil => exact List.Perm.refl _
  | cons r rs ih =>
    exact (insertRule_perm r (sortRules rs)).trans (List.Perm.cons r ih)

/-- Helper: `insertRule` preserves the priority-descending invariant. -/
theorem insertRule_pairwise (r : FilterRule) (l : List FilterRule)
    (h : l.Pairwise (fun a b => b.priority ≤ a.priority)) :
    (insertRule r l).Pairwise (fun a b => b.priority ≤ a.priority) := by
  induction l with
  | nil => simp [insertRule]
  | cons x xs ih =>
    rw [List.pairwise_cons] at h
    obtain ⟨hx, hxs⟩ := h
    unfold insertRule
    by_cases hc : r.priority ≤ x.priority
    · rw [if_pos hc, List.pairwise_cons]
      refine ⟨?_, ih hxs⟩
      intro y hy
      rcases List.mem_cons.mp ((insertRule_perm r xs).mem_iff.mp hy) with rfl | hmem
      · exact hc
      · exact hx y hmem
    · rw [if_neg hc]
      push_neg at hc
      rw [List.pairwise_cons]
      refine ⟨?_, List.pairwise_cons.mpr ⟨hx, hxs⟩⟩
      intro y hy
      rcases List.mem_cons.mp hy with rfl | hmem
      · exact hc.le
      · exact le_trans (hx y hmem) hc.le

/-- Helper: `sortRules` output is priority-descending. -/
theorem sortRules_pairwise (l : List FilterRule) :
    (sortRules l).Pairwise (fun a b => b.priority ≤ a.priority) := by
  induction l with
  | nil => simp [sortRules]
  | cons r rs ih => exact insertRule_pairwise r _ ih

/-- Helper: `firstFailing` returns `none` exactly when every rule
passes. -/
theorem firstFailing_none_iff (lib : Lib) (now : ℚ) (c : VideoCandidate) (l : List FilterRule) :
    firstFailing lib now c l = none ↔ ∀ r ∈ l, (evaluateRule lib now r c).1 = true := by
  induction l with
  | nil => simp [firstFailing]
  | cons r rs ih =>
    by_cases h : (evaluateRule lib now r c).1 = true
    · simp only [firstFailing, h, if_true]
      rw [ih]
      constructor
      · intro hall x hx
        rcases List.mem_cons.mp hx with rfl | hmem
        · exact h
        · exact hall x hmem
      · intro hall x hx
        exact hall x (List.mem_cons_of_mem r hx)
    · simp only [firstFailing, h, if_false]
      constructor
      · intro hc
        exact absurd hc (by simp)
      · intro hall
        exact absurd (hall r (List.mem_cons_self r rs)) h

/-- Helper: a `firstFailing` hit is a failing rule preceded only by
passing rules. -/
theorem firstFailing_some (lib : Lib) (now : ℚ) (c : VideoCandidate) :
    ∀ (l : List FilterRule) (f : FilterRule) (s : String),
    firstFailing lib now c l = some (f, s) →
    evaluateRule lib now f c = (false, s) ∧
    ∃ l₁ l₂, l = l₁ ++ f :: l₂ ∧ ∀ x ∈ l₁, (evaluateRule lib now x c).1 = true := by
  intro l
  induction l with
  | nil => intro f s h; simp [firstFailing] at h
  | cons r rs ih =>
    intro f s h
    by_cases hp : (evaluateRule lib now r c).1 = true
    · simp only [firstFailing, hp, if_true] at h
      obtain ⟨hf, l₁, l₂, heq, hpass⟩ := ih f s h
      refine ⟨hf, r :: l₁, l₂, by rw [heq]; rfl, ?_⟩
      intro x hx
      rcases List.mem_cons.mp hx with rfl | hmem
      · exact hp
      · exact hpass x hmem
    · simp only [firstFailing] at h
      rw [if_neg hp] at h
      rw [Option.some.injEq, Prod.mk.injEq] at h
      obtain ⟨rfl, rfl⟩ := h
      refine ⟨?_, [], rs, rfl, by intro x hx; simp at hx⟩
      rw [Bool.not_eq_true] at hp
      exact Prod.ext hp rfl

/-- C5: `Evaluate` applies the active rules in priority-descending order
and stops at the first failing rule, recording exactly one decision row
per call; a rejection names the first failing rule — in particular every
strictly higher-priority rule passes and no failing rule has strictly
higher priority — with a non-empty reason, and when every rule passes the
single recorded row passes with empty reject fields. -/
theorem claim_C5 : ∀ (lib : Lib) (now : ℚ) (rules : List FilterRule) (c : VideoCandidate)
    (tbl : DecisionTable),
    ((Evaluate lib now rules c tbl).2.rows
        = tbl.rows ++ [{ (Evaluate lib now rules c tbl).1 with id := tbl.nextId }]) ∧
    ((Evaluate lib now rules c tbl).2.nextId = tbl.nextId + 1) ∧
    ((Evaluate lib now rules c tbl).1.videoId = c.videoId) ∧
    ((Evaluate lib now rules c tbl).1.evaluatedAt = now) ∧
    ((∀ r ∈ rules, (evaluateRule lib now r c).1 = true) →
      (Evaluate lib now rules c tbl).1.rulePassed = true ∧
      (Evaluate lib now rules c tbl).1.rejectRuleName = "" ∧
      (Evaluate lib now rules c tbl).1.rejectReason = "") ∧
    (∀ f s, firstFailing lib now c (sortRules rules) = some (f, s) →
      (Evaluate lib now rules c tbl).1.rulePassed = false ∧
      (Evaluate lib now rules c tbl).1.rejectRuleName = f.ruleName ∧
      (Evaluate lib now rules c tbl).1.rejectReason = s ∧
      s ≠ "" ∧ f ∈ rules ∧ (evaluateRule lib now f c).1 = false ∧
      (∀ r ∈ rules, f.priority < r.priority → (evaluateRule lib now r c).1 = true) ∧
      (∀ r ∈ rules, (evaluateRule lib now r c).1 = false → r.priority ≤ f.priority)) := by
  intro lib now rules c tbl
  cases hf : firstFailing lib now c (sortRules rules) with
  | none =>
    have hEv : Evaluate lib now rules c tbl =
        ({ id := 0, videoId := c.videoId, rulePassed := true, rejectRuleName := "",
           rejectReason := "", evaluatedAt := now },
         RecordRuleDecision tbl
          { id := 0, videoId := c.videoId, rulePassed := true, rejectRuleName := "",
            rejectReason := "", evaluatedAt := now }) := by
      unfold Evaluate
      rw [hf]
    rw [hEv]
    refine ⟨rfl, rfl, rfl, rfl, fun _ => ⟨rfl, rfl, rfl⟩, ?_⟩
    intro f s h
    exact Option.noConfusion h
  | some fs =>
    obtain ⟨f₀, s₀⟩ := fs
    have hEv : Evaluate lib now rules c tbl =
        ({ id := 0, videoId := c.videoId, rulePassed := false, rejectRuleName := f₀.ruleName,
           rejectReason := s₀, evaluatedAt := now },
         RecordRuleDecision tbl
          { id := 0, videoId := c.videoId, rulePassed := false, rejectRuleName := f₀.ruleName,
            rejectReason := s₀, evaluatedAt := now }) := by
      unfold Evaluate
      rw [hf]
    rw [hEv]
    refine ⟨rfl, rfl, rfl, rfl, ?_, ?_⟩
    · intro hall
      have hnone : firstFailing lib now c (sortRules rules) = none :=
        (firstFailing_none_iff lib now c _).mpr
          (fun r hr => hall r ((sortRules_perm rules).mem_iff.mp hr))
      rw [hnone] at hf
      exact Option.noConfusion hf
    · intro f s h
      rw [Option.some.injEq, Prod.mk.injEq] at h
      obtain ⟨rfl, rfl⟩ := h
      obtain ⟨heval, l₁, l₂, heq, hpass⟩ := firstFailing_some lib now c _ f₀ s₀ hf
      have hmemSorted : f₀ ∈ sortRules rules := by
        rw [heq]
        exact List.mem_append_right l₁ (List.mem_cons_self f₀ l₂)
      have hmem : f₀ ∈ rules := (sortRules_perm rules).mem_iff.mp hmemSorted
      have hfail1 : (evaluateRule lib now f₀ c).1 = false := by rw [heval]
      have hsorted := sortRules_pairwise rules
      rw [heq, List.pairwise_append] at hsorted
      obtain ⟨hp1, hp2, hp12⟩ := hsorted
      rw [List.pairwise_cons] at hp2
      obtain ⟨hf₀tail, _⟩ := hp2
      have hbound : ∀ r ∈ rules, (evaluateRule lib now r c).1 = false → r.priority ≤ f₀.priority := by
        intro r hr hrfail
        have hrs : r ∈ sortRules rules := (sortRules_perm rules).mem_iff.mpr hr
        rw [heq] at hrs
        rcases List.mem_append.mp hrs with hin | hin
        · exact absurd (hpass r hin) (by rw [hrfail]; exact Bool.false_ne_true)
        · rcases List.mem_cons.mp hin with rfl | hin
          · exact le_refl _
          · exact hf₀tail r hin
      refine ⟨rfl, rfl, rfl, evaluateRule_reason lib now f₀ c s₀ heval, hmem, hfail1, ?_, hbound⟩
      intro r hr hlt
      by_contra hne
      rw [Bool.not_eq_true] at hne
      exact absurd hlt (not_lt.mpr (hbound r hr hne))

/-- Witness for C5 at the priority tie-break scenario: a low-view
sponsored candidate against `min_views` at priority 100 and a sponsored
regex at priority 50 is rejected by `min_views` with a non-empty
reason. -/
theorem claim_C5_witness :
    (Evaluate exLib2 0 c5Rules c5Cand ⟨[], 1⟩).1.rulePassed = false ∧
    (Evaluate exLib2 0 c5Rules c5Cand ⟨[], 1⟩).1.rejectRuleName = "min_views" ∧
    (Evaluate exLib2 0 c5Rules c5Cand ⟨[], 1⟩).1.rejectReason ≠ "" ∧
    (Evaluate exLib2 0 c5Rules c5Cand ⟨[], 1⟩).2.rows.length = 1 := by
  have hf : firstFailing exLib2 0 c5Cand (sortRules c5Rules)
      = some (c5MinRule, "view_count (100) below minimum (1000)") := by decide
  obtain ⟨h1, h2, h3, h4, _⟩ :=
    (claim_C5 exLib2 0 c5Rules c5Cand ⟨[], 1⟩).2.2.2.2.2 c5MinRule
      "view_count (100) below minimum (1000)" hf
  refine ⟨h1, by rw [h2]; rfl, by rw [h3]; decide, ?_⟩
  rw [(claim_C5 exLib2 0 c5Rules c5Cand ⟨[], 1⟩).1]
  rfl

/-- Helper: the max-keeping fold of `GetRuleDecision`, seeded with an
element, returns an element of the seed-or-list whose `evaluatedAt`
dominates the seed and every list element. -/
theorem getRuleDecision_fold (step : Option RuleDecision → RuleDecision → Option RuleDecision)
    (hstep : step = fun best r =>
      match best with
      | none => some r
      | some b => if b.evaluatedAt < r.evaluatedAt then some r else some b) :
    ∀ (l : List RuleDecision) (b : RuleDecision),
    ∃ d, l.foldl step (some b) = some d ∧ (d ∈ l ∨ d = b) ∧
      b.evaluatedAt ≤ d.evaluatedAt ∧ ∀ r ∈ l, r.evaluatedAt ≤ d.evaluatedAt := by
  subst hstep
  intro l
  induction l with
  | nil =>
    intro b
    exact ⟨b, rfl, Or.inr rfl, le_refl _, by intro r hr; simp at hr⟩
  | cons a l ih =>
    intro b
    by_cases h : b.evaluatedAt < a.evaluatedAt
    · obtain ⟨d, hd, hmem, hdom, hall⟩ := ih a
      refine ⟨d, ?_, ?_, le_trans h.le hdom, ?_⟩
      · simpa [List.foldl_cons, h] using hd
      · rcases hmem with hm | hm
        · exact Or.inl (List.mem_cons_of_mem a hm)
        · exact Or.inl (hm ▸ List.mem_cons_self a l)
      · intro r hr
        rcases List.mem_cons.mp hr with rfl | hm
        · exact hdom
        · exact hall r hm
    · obtain ⟨d, hd, hmem, hdom, hall⟩ := ih b
      refine ⟨d, ?_, ?_, hdom, ?_⟩
      · simpa [List.foldl_cons, h] using hd
      · rcases hmem with hm | hm
        · exact Or.inl (List.mem_cons_of_mem a hm)
        · exact Or.inr hm
      · intro r hr
        rcases List.mem_cons.mp hr with rfl | hm
        · exact le_trans (not_lt.mp h) hdom
        · exact hall r hm

/-- C1 counterexample: with two decisions for candidate `"v"` whose
timestamps are out of id order, `GetRuleDecision` returns the row with
id 1 even though a decision with the larger id 2 exists — it keys on
`evaluated_at`, not on the largest id. -/
theorem claim_C1_counterexample :
    ∃ d, GetRuleDecision c1Table "v" = some d ∧ d.id = 1 ∧
      ¬ (∀ r ∈ c1Table.rows, r.videoId = "v" → r.id ≤ d.id) := by
  refine ⟨{ id := 1, videoId := "v", rulePassed := true, rejectRuleName := "",
            rejectReason := "", evaluatedAt := 2 }, by decide, rfl, ?_⟩
  intro hall
  have := hall
    { id := 2, videoId := "v", rulePassed := false, rejectRuleName := "min_views",
      rejectReason := "low", evaluatedAt := 1 }
    (by decide) rfl
  exact absurd this (by decide)

/-- C1 (amended): for every candidate with at least one recorded
decision, `GetRuleDecision` returns a decision row of that candidate
whose `evaluated_at` is maximal among the decisions of that candidate (the SQL
orders by `evaluated_at DESC LIMIT 1`); it is not keyed on `id`, and when
two decisions share the maximal timestamp the choice between them is
made by the query, not by the largest id. -/
theorem claim_C1 : ∀ (tbl : DecisionTable) (vid : String) (r₀ : RuleDecision),
    r₀ ∈ tbl.rows → r₀.videoId = vid →
    ∃ d, GetRuleDecision tbl vid = some d ∧ d ∈ tbl.rows ∧ d.videoId = vid ∧
      ∀ r ∈ tbl.rows, r.videoId = vid → r.evaluatedAt ≤ d.evaluatedAt := by
  intro tbl vid r₀ hmem hvid
  have hr₀ : r₀ ∈ tbl.rows.filter (fun r => r.videoId = vid) := by
    rw [List.mem_filter]
    exact ⟨hmem, by simp [hvid]⟩
  unfold GetRuleDecision
  cases hfl : tbl.rows.filter (fun r => r.videoId = vid) with
  | nil => rw [hfl] at hr₀; exact absurd hr₀ (by simp)
  | cons a l =>
    obtain ⟨d, hd, hmemd, hdom, hall⟩ := getRuleDecision_fold _ rfl l a
    have hmemfl : d ∈ tbl.rows.filter (fun r => r.videoId = vid) := by
      rw [hfl]
      rcases hmemd with hm | hm
      · exact List.mem_cons_of_mem a hm
      · exact hm ▸ List.mem_cons_self a l
    rw [List.mem_filter] at hmemfl
    refine ⟨d, ?_, hmemfl.1, by simpa using hmemfl.2, ?_⟩
    · rw [List.foldl_cons]
      exact hd
    · intro r hr hrvid
      have hrf : r ∈ tbl.rows.filter (fun r => r.videoId = vid) := by
        rw [List.mem_filter]
        exact ⟨hr, by simp [hrvid]⟩
      rw [hfl] at hrf
      rcases List.mem_cons.mp hrf with rfl | hm
      · exact hdom
      · exact hall r hm

/-- Witness for C1 (amended) at the concrete two-row table. -/
theorem claim_C1_witness :
    ∃ d, GetRuleDecision c1Table "v" = some d ∧ d ∈ c1Table.rows ∧ d.videoId = "v" ∧
      ∀ r ∈ c1Table.rows, r.videoId = "v" → r.evaluatedAt ≤ d.evaluatedAt :=
  claim_C1 c1Table "v"
    { id := 1, videoId := "v", rulePassed := true, rejectRuleName := "",
      rejectReason := "", evaluatedAt := 2 }
    (by decide) rfl

/-- C2 counterexample: after two upserts of the same video id, the stored
row keeps the `published_at` of the first insert (the conflict-update list of
`UpsertCandidate` omits it), while mutable fields such as the title do
follow the second upsert — so the stored row does not equal the second
candidate on every non-`discovered_at` field. -/
theorem claim_C2_counterexample :
    (GetCandidate c2Tbl "v").map VideoCandidate.publishedAt ≠ some c2Second.publishedAt ∧
    (GetCandidate c2Tbl "v").map VideoCandidate.publishedAt = some (some 10) ∧
    (GetCandidate c2Tbl "v").map VideoCandidate.title = some c2Second.title := by
  refine ⟨by decide, by decide, by decide⟩

/-- C2 (amended): after upserting a candidate C and then a candidate D
with the same video id (starting from a table without that id), the
stored row keeps `discovered_at` from the first insert and also keeps
`channel_id` and `published_at` from C, while every field in the conflict
update list (title, description, duration, the three counts, thumbnail,
tags, category, language, and both computed metrics) equals D. -/
theorem claim_C2 : ∀ (tbl : CandidateTable) (vc vcNew : VideoCandidate) (t tNew : ℚ),
    vcNew.videoId = vc.videoId →
    GetCandidate tbl vc.videoId = none →
    GetCandidate (UpsertCandidate tNew vcNew (UpsertCandidate t vc tbl)) vc.videoId = some
      { vcNew with videoId := vc.videoId, channelId := vc.channelId,
                   publishedAt := vc.publishedAt, discoveredAt := t } := by
  intro tbl vc vcNew t tNew hid hnone
  unfold GetCandidate at hnone
  have h1 : UpsertCandidate t vc tbl = tbl ++ [{ vc with discoveredAt := t }] := by
    unfold UpsertCandidate
    rw [any_eq_false_of_find?_none hnone]
    simp
  rw [h1]
  have hany2 : ((tbl ++ [{ vc with discoveredAt := t }]).any
      (fun r => r.videoId = vcNew.videoId)) = true := by
    simp [List.any_append, hid]
  unfold UpsertCandidate GetCandidate
  rw [hany2, if_pos rfl, hid]
  rw [find?_key_update VideoCandidate.videoId
    (fun r => { r with
      title := vcNew.title, description := vcNew.description,
      durationSeconds := vcNew.durationSeconds, viewCount := vcNew.viewCount,
      likeCount := vcNew.likeCount, commentCount := vcNew.commentCount,
      thumbnailUrl := vcNew.thumbnailUrl, tags := vcNew.tags,
      category := vcNew.category, language := vcNew.language,
      viewVelocity := vcNew.viewVelocity, engagementRate := vcNew.engagementRate })
    vc.videoId (fun a => rfl)]
  rw [List.find?_append, hnone]
  rw [List.find?_cons_of_pos _ (by simp)]
  rfl

/-- Witness for C2 (amended) at the concrete pair of candidates. -/
theorem claim_C2_witness :
    GetCandidate c2Tbl "v" = some
      { c2Second with videoId := "v", channelId := c2First.channelId,
                      publishedAt := c2First.publishedAt, discoveredAt := 5 } := by
  have h := claim_C2 [] c2First c2Second 5 7 rfl rfl
  exact h

/-- C3 counterexample: re-adding a channel with an empty name and zero
counts overwrites the stored name with `""` and the counts with 0 — the
SQL `COALESCE(excluded.…, channels.…)` guards only against `NULL`, and
the bound Go `string` / `int` values are never `NULL`, so the existing
name is not preserved and zero counts are not skipped. -/
theorem claim_C3_counterexample :
    (GetChannel c3Tbl "c").map Channel.name = some "" ∧
    (GetChannel c3Tbl "c").map Channel.name ≠ some "Original Name" ∧
    (GetChannel c3Tbl "c").map Channel.subscriberCount = some 0 ∧
    (GetChannel c3Tbl "c").map Channel.subscriberCount ≠ some 5 ∧
    (GetChannel c3Tbl "c").map Channel.videoCount = some 0 := by
  refine ⟨by decide, by decide, by decide, by decide, by decide⟩

/-- C3 (amended): for an existing channel, `AddChannel` with the same
channel id overwrites `name` (even with the empty string), `url`,
`subscriber_count` and `video_count` (even with zero) unconditionally,
sets `is_active` to true, and never changes `created_at`,
`last_scanned_at` or `scan_frequency_hours`. -/
theorem claim_C3 : ∀ (tbl : ChannelTable) (ch : Channel) (now : ℚ) (row : Channel),
    GetChannel tbl ch.channelId = some row →
    GetChannel (AddChannel now ch tbl) ch.channelId = some
      { row with name := ch.name, url := ch.url, subscriberCount := ch.subscriberCount,
                 videoCount := ch.videoCount, isActive := true } := by
  intro tbl ch now row hrow
  unfold GetChannel at hrow ⊢
  unfold AddChannel
  rw [any_eq_true_of_find?_some hrow, if_pos rfl]
  rw [find?_key_update Channel.channelId
    (fun r => { r with
      name := sqlCoalesce (some ch.name) r.name, url := ch.url,
      subscriberCount := sqlCoalesce (some ch.subscriberCount) r.subscriberCount,
      videoCount := sqlCoalesce (some ch.videoCount) r.videoCount,
      isActive := true })
    ch.channelId (fun a => rfl)]
  rw [hrow]
  rfl

/-- Witness for C3 (amended) at the concrete pair of channels. -/
theorem claim_C3_witness :
    GetChannel c3Tbl "c" = some
      { c3First with name := "", url := "u2", subscriberCount := 0,
                     videoCount := 0, isActive := true, createdAt := 0 } := by
  have h := claim_C3 (AddChannel 0 c3First []) c3Second 1
    { c3First with lastScannedAt := none, createdAt := 0 } (by decide)
  exact h

/-- Helper: `find?` is `none` when `any` is false. -/
theorem find?_none_of_any_false {α : Type} {p : α → Bool} {l : List α}
    (h : l.any p = false) : l.find? p = none := by
  cases hf : l.find? p with
  | none => rfl
  | some a =>
    have := any_eq_true_of_find?_some hf
    rw [h] at this
    exact Bool.noConfusion this

/-- C9: `MarkUploadedWithBvid` stores the sentinel `"unknown"` as
`channel_id` when the given channel id is empty, and on an existing
uploads row an empty new platform video id leaves the stored
`bilibili_bvid` unchanged (the `COALESCE` sees the empty string bound as
`NULL`); `channel_id` and `uploaded_at` are refreshed from the call. -/
theorem claim_C9 : ∀ (now : ℚ) (videoId channelId bvid : String) (tbl : UploadTable),
    (channelId = "" → ∀ u,
      GetUpload (MarkUploadedWithBvid now videoId channelId bvid tbl) videoId = some u →
      u.channelId = "unknown") ∧
    (∀ u₀, GetUpload tbl videoId = some u₀ → bvid = "" →
      GetUpload (MarkUploadedWithBvid now videoId channelId bvid tbl) videoId = some
        { u₀ with channelId := if channelId = "" then "unknown" else channelId,
                  uploadedAt := now }) := by
  intro now videoId channelId bvid tbl
  constructor
  · intro hch u hu
    subst hch
    unfold MarkUploadedWithBvid at hu
    rw [if_pos rfl] at hu
    dsimp only at hu
    by_cases hany : (tbl.any (fun r => r.videoId = videoId)) = true
    · rw [if_pos hany] at hu
      unfold GetUpload at hu
      rw [find?_key_update Upload.videoId
        (fun r => { r with
          channelId := "unknown",
          bilibiliBvid := sqlCoalesceOpt (nullableString bvid) r.bilibiliBvid,
          uploadedAt := now })
        videoId (fun a => rfl)] at hu
      cases hf : tbl.find? (fun r => r.videoId = videoId) with
      | none => rw [hf] at hu; exact Option.noConfusion hu
      | some r =>
        rw [hf] at hu
        have hur : u = { r with
            channelId := "unknown",
            bilibiliBvid := sqlCoalesceOpt (nullableString bvid) r.bilibiliBvid,
            uploadedAt := now } := by
          injection hu with h1
          exact h1.symm
        rw [hur]
    · rw [if_neg hany] at hu
      unfold GetUpload at hu
      rw [List.find?_append, find?_none_of_any_false (Bool.eq_false_iff.mpr hany)] at hu
      rw [List.find?_cons_of_pos _ (by simp)] at hu
      injection hu with h1
      rw [← h1]
  · intro u₀ hu₀ hb
    subst hb
    unfold GetUpload at hu₀ ⊢
    unfold MarkUploadedWithBvid
    dsimp only
    rw [if_pos (any_eq_true_of_find?_some hu₀)]
    rw [find?_key_update Upload.videoId
      (fun r => { r with
        channelId := if channelId = "" then "unknown" else channelId,
        bilibiliBvid := sqlCoalesceOpt (nullableString "") r.bilibiliBvid,
        uploadedAt := now })
      videoId (fun a => rfl)]
    rw [hu₀]
    rfl

/-- Witness for C9 at an existing upload row with a stored bvid. -/
theorem claim_C9_witness :
    GetUpload (MarkUploadedWithBvid 5 "v" "" "" [⟨"v", "K", some "BV1", 3⟩]) "v"
      = some ⟨"v", "unknown", some "BV1", 5⟩ ∧
    (∀ u, GetUpload (MarkUploadedWithBvid 5 "v" "" "" [⟨"v", "K", some "BV1", 3⟩]) "v" = some u →
      u.channelId = "unknown") := by
  constructor
  · exact (claim_C9 5 "v" "" "" [⟨"v", "K", some "BV1", 3⟩]).2 ⟨"v", "K", some "BV1", 3⟩
      (by decide) rfl
  · exact (claim_C9 5 "v" "" "" [⟨"v", "K", some "BV1", 3⟩]).1 rfl

/-- Helper: an upsert leaves a row with the upserted video id in the
table. -/
theorem upsert_key_present (now : ℚ) (vc : VideoCandidate) (tbl : CandidateTable) :
    ∃ row ∈ UpsertCandidate now vc tbl, row.videoId = vc.videoId := by
  unfold UpsertCandidate
  by_cases hany : (tbl.any (fun r => r.videoId = vc.videoId)) = true
  · rw [if_pos hany]
    rw [List.any_eq_true] at hany
    obtain ⟨r, hr, hkey⟩ := hany
    have hkey2 : r.videoId = vc.videoId := by simpa using hkey
    refine ⟨_, List.mem_map_of_mem _ hr, ?_⟩
    rw [if_pos hkey2]
    exact hkey2
  · rw [if_neg hany]
    exact ⟨{ vc with discoveredAt := now }, List.mem_append_right _ (List.mem_singleton.mpr rfl), rfl⟩

/-- Helper: an upsert preserves the presence of any video id. -/
theorem upsert_preserves_present (now : ℚ) (vc : VideoCandidate) (tbl : CandidateTable)
    (vid : String) (h : ∃ row ∈ tbl, row.videoId = vid) :
    ∃ row ∈ UpsertCandidate now vc tbl, row.videoId = vid := by
  obtain ⟨r, hr, hkey⟩ := h
  unfold UpsertCandidate
  by_cases hany : (tbl.any (fun x => x.videoId = vc.videoId)) = true
  · rw [if_pos hany]
    refine ⟨_, List.mem_map_of_mem _ hr, ?_⟩
    by_cases hc : r.videoId = vc.videoId
    · rw [if_pos hc]
      exact hkey
    · rw [if_neg hc]
      exact hkey
  · rw [if_neg hany]
    exact ⟨r, List.mem_append_left _ hr, hkey⟩

/-- Helper: the count component of the scan fold adds the number of fetched
videos. -/
theorem scanFold_count (lib : Lib) (now : ℚ) (cid : String) :
    ∀ (videos : List VideoMetadata) (n : ℕ) (tbl : CandidateTable),
    (videos.foldl
      (fun acc v => (acc.1 + 1, UpsertCandidate now (candidateOfMetadata lib now cid v) acc.2))
      (n, tbl)).1 = n + videos.length := by
  intro videos
  induction videos with
  | nil => intro n tbl; simp
  | cons v vs ih =>
    intro n tbl
    rw [List.foldl_cons, ih]
    simp
    omega

/-- Helper: presence of a video id survives the scan fold. -/
theorem scanFold_mono (lib : Lib) (now : ℚ) (cid : String) :
    ∀ (videos : List VideoMetadata) (n : ℕ) (tbl : CandidateTable) (vid : String),
    (∃ row ∈ tbl, row.videoId = vid) →
    ∃ row ∈ (videos.foldl
      (fun acc v => (acc.1 + 1, UpsertCandidate now (candidateOfMetadata lib now cid v) acc.2))
      (n, tbl)).2, row.videoId = vid := by
  intro videos
  induction videos with
  | nil => intro n tbl vid h; exact h
  | cons v vs ih =>
    intro n tbl vid h
    rw [List.foldl_cons]
    exact ih _ _ vid (upsert_preserves_present now _ tbl vid h)

/-- Helper: every fetched video leaves a row with its id after the scan
fold. -/
theorem scanFold_present (lib : Lib) (now : ℚ) (cid : String) :
    ∀ (videos : List VideoMetadata) (n : ℕ) (tbl : CandidateTable),
    ∀ v ∈ videos,
    ∃ row ∈ (videos.foldl
      (fun acc v => (acc.1 + 1, UpsertCandidate now (candidateOfMetadata lib now cid v) acc.2))
      (n, tbl)).2, row.videoId = v.id := by
  intro videos
  induction videos with
  | nil => intro n tbl v hv; simp at hv
  | cons u us ih =>
    intro n tbl v hv
    rcases List.mem_cons.mp hv with rfl | hm
    · rw [List.foldl_cons]
      exact scanFold_mono lib now cid us _ _ v.id
        (upsert_key_present now (candidateOfMetadata lib now cid v) tbl)
    · rw [List.foldl_cons]
      exact ih _ _ v hm

/-- C10: a channel that exists but is inactive is not skipped by a direct
`ScanChannel` call — the scan still counts every fetched video, upserts a
candidate for each one, and stamps `last_scanned_at`; only an absent
channel returns 0 with no side effects, and the `is_active` guard lives
solely in `ScanAllActive`, whose iteration list contains only active
channels. -/
theorem claim_C10 : ∀ (lib : Lib) (now : ℚ) (downloader : String → ℕ → List VideoMetadata)
    (cid : String) (limit : ℕ) (channels : ChannelTable) (cands : CandidateTable) (ch : Channel),
    (GetChannel channels cid = some ch → ch.isActive = false →
      (ScanChannel lib now downloader cid limit channels cands).1
        = (downloader ch.url limit).length ∧
      GetChannel (ScanChannel lib now downloader cid limit channels cands).2.1 cid
        = some { ch with lastScannedAt := some now } ∧
      (∀ v ∈ downloader ch.url limit,
        ∃ row ∈ (ScanChannel lib now downloader cid limit channels cands).2.2,
          row.videoId = v.id)) ∧
    (GetChannel channels cid = none →
      ScanChannel lib now downloader cid limit channels cands = (0, channels, cands)) ∧
    (∀ ch' ∈ ListActiveChannels channels, ch'.isActive = true) := by
  intro lib now downloader cid limit channels cands ch
  refine ⟨?_, ?_, ?_⟩
  · intro hch _
    have hscan : ScanChannel lib now downloader cid limit channels cands =
        (((downloader ch.url limit).foldl
            (fun acc v => (acc.1 + 1, UpsertCandidate now (candidateOfMetadata lib now cid v) acc.2))
            (0, cands)).1,
         UpdateChannelScanned now cid channels,
         ((downloader ch.url limit).foldl
            (fun acc v => (acc.1 + 1, UpsertCandidate now (candidateOfMetadata lib now cid v) acc.2))
            (0, cands)).2) := by
      unfold ScanChannel
      rw [hch]
    rw [hscan]
    refine ⟨?_, ?_, ?_⟩
    · rw [scanFold_count]
      simp
    · unfold GetChannel UpdateChannelScanned
      rw [find?_key_update Channel.channelId
        (fun r => { r with lastScannedAt := some now }) cid (fun a => rfl)]
      unfold GetChannel at hch
      rw [hch]
      rfl
    · intro v hv
      exact scanFold_present lib now cid _ _ _ v hv
  · intro hch
    unfold ScanChannel
    rw [hch]
  · intro ch' hm
    exact (List.mem_filter.mp hm).2

/-- Witness for C10: scanning the stored-but-inactive channel counts the
fetched video, stamps `last_scanned_at`, and stores the candidate. -/
theorem claim_C10_witness :
    (ScanChannel exLib 3 c10Downloader "UC_I" 1 [c10Chan] []).1 = 1 ∧
    GetChannel (ScanChannel exLib 3 c10Downloader "UC_I" 1 [c10Chan] []).2.1 "UC_I"
      = some { c10Chan with lastScannedAt := some 3 } ∧
    (∃ row ∈ (ScanChannel exLib 3 c10Downloader "UC_I" 1 [c10Chan] []).2.2,
      row.videoId = "vid_i") := by
  obtain ⟨h1, h2, h3⟩ :=
    (claim_C10 exLib 3 c10Downloader "UC_I" 1 [c10Chan] [] c10Chan).1 (by decide) rfl
  exact ⟨h1, h2, h3 c10Meta (List.mem_singleton.mpr rfl)⟩

/-- Helper (modelled from the spec): when every id is already uploaded,
the `syncIds` loop only counts skips, writes nothing, and performs no
download or publish. -/
theorem syncIds_all_uploaded (now : ℚ) (cid : String)
    (download : String → Option (List String)) (publish : String → Option (Option String)) :
    ∀ (ids : List String) (ups : UploadTable),
    (∀ id ∈ ids, IsUploaded ups id = true) →
    syncIds now cid download publish ids ups = (⟨0, ids.length, 0, 0⟩, ups, [], false) := by
  intro ids
  induction ids with
  | nil => intro ups _; rfl
  | cons i is ih =>
    intro ups hall
    have hi : IsUploaded ups i = true := hall i (List.mem_cons_self i is)
    have hrest : ∀ id ∈ is, IsUploaded ups id = true :=
      fun id hm => hall id (List.mem_cons_of_mem i hm)
    simp only [syncIds, hi, if_true, ih ups hrest]
    rfl

/-- C4: a sync over ids that are all already recorded as uploaded (as
after a first successful sync with an unchanged upstream id list) skips
every id — `considered` and `skipped` equal the number of ids,
`downloaded = 0`, `uploaded = 0`, the uploads table is unchanged, the
effect log is empty (no download and no publish happen), and no error is
reported. -/
theorem claim_C4 : ∀ (now : ℚ) (cid : String)
    (download : String → Option (List String)) (publish : String → Option (Option String))
    (ids : List String) (ups : UploadTable),
    (∀ id ∈ ids, IsUploaded ups id = true) →
    SyncChannel now cid download publish ids ups
      = (⟨ids.length, ids.length, 0, 0⟩, ups, [], false) := by
  intro now cid download publish ids ups hall
  unfold SyncChannel
  rw [syncIds_all_uploaded now cid download publish ids ups hall]

/-- Witness for C4: re-syncing the single already-uploaded id `"vA"`
skips it with no effects. -/
theorem claim_C4_witness :
    SyncChannel 1 "K" (fun _ => none) (fun _ => none) ["vA"] c4Ups
      = (⟨1, 1, 0, 0⟩, c4Ups, [], false) :=
  claim_C4 1 "K" (fun _ => none) (fun _ => none) ["vA"] c4Ups (by decide)

end GreatTransport
